import Mathlib

/-!
Verification of the tinyrs software renderer: a shallow embedding of
`src/geometry.rs`, `src/model.rs` and `src/renderer.rs` in Lean 4.

Modelling conventions:
* `f64` values are modelled as exact rationals (`ℚ`); the floating-point
  operations used by the claims under scrutiny are exact on the inputs
  considered, so rounding is not modelled.
* The one place where IEEE special values are semantically relevant — the
  division by the precomputed basis determinant in `Triangle::barycentric` —
  is modelled explicitly by the type `FVal` (finite / +∞ / -∞ / NaN), with
  the IEEE rules `0/0 = NaN` and `±x/0 = ±∞` and the IEEE comparison rules
  (every comparison with NaN is false).
* `f64::sqrt` (used only by `Vec3f::normalize`, which in turn is used only
  by the `vn` branch of the mesh loader) is modelled by `sqrtModel`, exact
  on perfect squares (where IEEE sqrt is exact too); no claim depends on
  the numeric value of a parsed normal.
* Rust `Vec<f64>` buffers indexed by computed offsets are modelled as
  functions `Nat → ℚ`; out-of-range reads (which would panic in Rust) do
  not occur on the executions the claims quantify over.
-/

attribute [local semireducible] Rat.ofScientific Rat.mul Rat.inv Rat.add Rat.sub

/-- `f64::MIN_POSITIVE` = 2^(-1022), the near-zero threshold used by every
pivoting / invertibility test in `geometry.rs`.  Written with a literal
denominator so that kernel evaluation does not unfold a unary power. -/
def minPositive : ℚ := mkRat 1 44942328371557897693232629769725618340449424473557664318357520289433168951375240783177119330601884005280028469967848339414697442203604155623211857659868531094441973356216371319075554900311523529863270738021251442209537670585615720368478277635206809290837627671146574559986811484619929076208839082406056034304

/-- The result of an IEEE `f64` division whose operands are finite: either a
finite value, an infinity, or NaN.  Used to model `Triangle::barycentric`'s
division by the (possibly zero) basis determinant. -/
inductive FVal where
  | fin (q : ℚ)
  | posInf
  | negInf
  | nan
deriving DecidableEq

/-- IEEE division of two finite values (`a / b` in `f64`): `0/0` is NaN,
`±a/0` is `±∞` (the compiled code only ever divides by a determinant that
was computed as `x - y`, whose zero is `+0.0`, so the sign of the infinity
follows the numerator), and otherwise the exact quotient. -/
def fdiv (a b : ℚ) : FVal :=
  if b = 0 then
    if a = 0 then .nan else if 0 < a then .posInf else .negInf
  else .fin (a / b)

/-- `f64::is_nan`. -/
def FVal.isNan : FVal → Bool
  | .nan => true
  | _ => false

/-- IEEE `<` against a finite bound: false for NaN, `+∞ < q` is false,
`-∞ < q` is true. -/
def FVal.ltq : FVal → ℚ → Bool
  | .fin a, q => decide (a < q)
  | .posInf, _ => false
  | .negInf, _ => true
  | .nan, _ => false

/-- IEEE `>` against a finite bound: false for NaN, `+∞ > q` is true,
`-∞ > q` is false. -/
def FVal.gtq : FVal → ℚ → Bool
  | .fin a, q => decide (q < a)
  | .posInf, _ => true
  | .negInf, _ => false
  | .nan, _ => false

/-- `sqrtModel q` models `f64::sqrt` exactly on rationals that are squares
of rationals (IEEE sqrt is exact there); on other inputs it returns the
placeholder 0 (no claim depends on such a value; a negative input would be
IEEE NaN). -/
def sqrtModel (q : ℚ) : ℚ :=
  let a := Nat.sqrt q.num.toNat
  let b := Nat.sqrt q.den
  if 0 ≤ q.num ∧ a * a = q.num.toNat ∧ b * b = q.den then (a : ℚ) / (b : ℚ) else 0

/-- `VecUV2f` from `geometry.rs`: a texture-coordinate pair. -/
structure VecUV2f where
  u : ℚ
  v : ℚ
deriving DecidableEq

/-- `VecUV2f::new`. -/
def VecUV2f.new (u v : ℚ) : VecUV2f := ⟨u, v⟩

/-- `Vec3f` from `geometry.rs`. -/
structure Vec3f where
  x : ℚ
  y : ℚ
  z : ℚ
deriving DecidableEq

/-- `Vec3f::new`. -/
def Vec3f.new (x y z : ℚ) : Vec3f := ⟨x, y, z⟩

/-- `Vec3f::dot`. -/
def Vec3f.dot (a b : Vec3f) : ℚ := a.x * b.x + a.y * b.y + a.z * b.z

/-- `Vec3f::norm` = `self.dot(self).sqrt()`. -/
def Vec3f.norm (a : Vec3f) : ℚ := sqrtModel (a.dot a)

/-- `Vec3f::normalize`: multiply by `1.0 / norm`. -/
def Vec3f.normalize (a : Vec3f) : Vec3f :=
  let invNorm := 1 / a.norm
  Vec3f.new (a.x * invNorm) (a.y * invNorm) (a.z * invNorm)

/-- `Vec3f::cross`. -/
def Vec3f.cross (a b : Vec3f) : Vec3f :=
  Vec3f.new (a.y * b.z - a.z * b.y) (a.z * b.x - a.x * b.z) (a.x * b.y - a.y * b.x)

instance : Add Vec3f := ⟨fun a b => Vec3f.new (a.x + b.x) (a.y + b.y) (a.z + b.z)⟩

instance : Sub Vec3f := ⟨fun a b => Vec3f.new (a.x - b.x) (a.y - b.y) (a.z - b.z)⟩

/-- `impl Mul<f64> for Vec3f` (uniform scale). -/
instance : HMul Vec3f ℚ Vec3f := ⟨fun a m => Vec3f.new (a.x * m) (a.y * m) (a.z * m)⟩

/-- `Triangle` from `geometry.rs`: three points plus the precomputed
barycentric basis. -/
structure Triangle where
  p1 : Vec3f
  p2 : Vec3f
  p3 : Vec3f
  v0 : Vec3f
  v1 : Vec3f
  d00 : ℚ
  d01 : ℚ
  d11 : ℚ
  det : ℚ
deriving DecidableEq

/-- `Triangle::new`. -/
def Triangle.new (p1 p2 p3 : Vec3f) : Triangle :=
  let v0 := p2 - p1
  let v1 := p3 - p1
  let d00 := v0.dot v0
  let d01 := v0.dot v1
  let d11 := v1.dot v1
  let det := d00 * d11 - d01 * d01
  ⟨p1, p2, p3, v0, v1, d00, d01, d11, det⟩

/-- `Triangle::barycentric`.  The two divisions by `det` follow IEEE
semantics via `fdiv`; the guards mirror `v.is_nan() || v < 0.0 || v > 1.0`.
The final `match` extracts the finite values: a value that passed the
guards is necessarily finite (NaN fails `is_nan`, `±∞` fails the range
check), so the catch-all arm is unreachable. -/
def Triangle.barycentric (t : Triangle) (p : Vec3f) : Option (ℚ × ℚ × ℚ) :=
  let v2 := p - t.p1
  let d02 := t.v0.dot v2
  let d12 := t.v1.dot v2
  let vF := fdiv (d02 * t.d11 - t.d01 * d12) t.det
  if vF.isNan || vF.ltq 0 || vF.gtq 1 then none
  else
    let wF := fdiv (t.d00 * d12 - d02 * t.d01) t.det
    if wF.isNan || wF.ltq 0 || wF.gtq 1 then none
    else
      match vF, wF with
      | .fin v, .fin w => some (1 - v - w, v, w)
      | _, _ => none

/-- `Triangle::vertices`. -/
def Triangle.vertices (t : Triangle) : List Vec3f := [t.p1, t.p2, t.p3]

/-! ## Fixed-size matrices (`Mat3x3f`, `Mat4x4f`, `Mat4x1f`) -/

/-- `Mat3x3f`: row-major 3×3 matrix, modelled as an index function
(`m r c` is `self[r][c]`). -/
abbrev Mat3x3f := Nat → Nat → ℚ

/-- `From<[f64; 9]> for Mat3x3f`: row-major array to matrix
(`data[3*r + c]`). -/
def Mat3x3f.ofArray (d : List ℚ) : Mat3x3f := fun r c => d.getD (3 * r + c) 0

/-- `Mat3x3f::identity`. -/
def Mat3x3f.identity : Mat3x3f :=
  Mat3x3f.ofArray [1, 0, 0, 0, 1, 0, 0, 0, 1]

/-- `Mat3x3f::cofactor`, the nine-case table from the source.  The source
panics on an index pair outside the table; the catch-all arm returns the
junk value 0 (never reached by the embedded callers). -/
def Mat3x3f.cofactor (m : Mat3x3f) (row col : Nat) : ℚ :=
  match row, col with
  | 0, 0 => m 1 1 * m 2 2 - m 1 2 * m 2 1
  | 1, 0 => m 0 2 * m 2 1 - m 0 1 * m 2 2
  | 2, 0 => m 0 1 * m 1 2 - m 0 2 * m 1 1
  | 0, 1 => m 1 2 * m 2 0 - m 1 0 * m 2 2
  | 1, 1 => m 0 0 * m 2 2 - m 0 2 * m 2 0
  | 2, 1 => m 0 2 * m 1 0 - m 0 0 * m 1 2
  | 0, 2 => m 1 0 * m 2 1 - m 1 1 * m 2 0
  | 1, 2 => m 0 1 * m 2 0 - m 0 0 * m 2 1
  | 2, 2 => m 0 0 * m 1 1 - m 0 1 * m 1 0
  | _, _ => 0

/-- `Mat3x3f::det`: cofactor expansion along row 0. -/
def Mat3x3f.det (m : Mat3x3f) : ℚ :=
  m 0 0 * m.cofactor 0 0 + m 0 1 * m.cofactor 0 1 + m 0 2 * m.cofactor 0 2

/-- `Mat3x3f::invert`: `None` when `|det| < f64::MIN_POSITIVE`, otherwise
the matrix built from the transposed cofactors divided by `det` (layout
exactly as in the source array literal). -/
def Mat3x3f.invert (m : Mat3x3f) : Option Mat3x3f :=
  let c00 := m.cofactor 0 0
  let c01 := m.cofactor 0 1
  let c02 := m.cofactor 0 2
  let det := m 0 0 * c00 + m 0 1 * c01 + m 0 2 * c02
  if |det| < minPositive then none
  else
    let c10 := m.cofactor 1 0
    let c11 := m.cofactor 1 1
    let c12 := m.cofactor 1 2
    let c20 := m.cofactor 2 0
    let c21 := m.cofactor 2 1
    let c22 := m.cofactor 2 2
    some (Mat3x3f.ofArray
      ([c00, c10, c20, c01, c11, c21, c02, c12, c22].map (fun c => c / det)))

/-- `Mat4x4f`: row-major 4×4 matrix as an index function. -/
abbrev Mat4x4f := Nat → Nat → ℚ

/-- `From<[f64; 16]> for Mat4x4f` (`data[4*r + c]`). -/
def Mat4x4f.ofArray (d : List ℚ) : Mat4x4f := fun r c => d.getD (4 * r + c) 0

/-- `Mat4x4f::identity`. -/
def Mat4x4f.identity : Mat4x4f :=
  Mat4x4f.ofArray [1, 0, 0, 0, 0, 1, 0, 0, 0, 0, 1, 0, 0, 0, 0, 1]

/-- `Mat4x4f::cofactor`: the sixteen-case table of signed 3×3 minors from
the source (catch-all arm models the unreachable panic with 0). -/
def Mat4x4f.cofactor (m : Mat4x4f) (row col : Nat) : ℚ :=
  match row, col with
  | 0, 0 => (Mat3x3f.ofArray
      [m 1 1, m 1 2, m 1 3, m 2 1, m 2 2, m 2 3, m 3 1, m 3 2, m 3 3]).det
  | 1, 0 => -(Mat3x3f.ofArray
      [m 0 1, m 0 2, m 0 3, m 2 1, m 2 2, m 2 3, m 3 1, m 3 2, m 3 3]).det
  | 2, 0 => (Mat3x3f.ofArray
      [m 0 1, m 0 2, m 0 3, m 1 1, m 1 2, m 1 3, m 3 1, m 3 2, m 3 3]).det
  | 3, 0 => -(Mat3x3f.ofArray
      [m 0 1, m 0 2, m 0 3, m 1 1, m 1 2, m 1 3, m 2 1, m 2 2, m 2 3]).det
  | 0, 1 => -(Mat3x3f.ofArray
      [m 1 0, m 1 2, m 1 3, m 2 0, m 2 2, m 2 3, m 3 0, m 3 2, m 3 3]).det
  | 1, 1 => (Mat3x3f.ofArray
      [m 0 0, m 0 2, m 0 3, m 2 0, m 2 2, m 2 3, m 3 0, m 3 2, m 3 3]).det
  | 2, 1 => -(Mat3x3f.ofArray
      [m 0 0, m 0 2, m 0 3, m 1 0, m 1 2, m 1 3, m 3 0, m 3 2, m 3 3]).det
  | 3, 1 => (Mat3x3f.ofArray
      [m 0 0, m 0 2, m 0 3, m 1 0, m 1 2, m 1 3, m 2 0, m 2 2, m 2 3]).det
  | 0, 2 => (Mat3x3f.ofArray
      [m 1 0, m 1 1, m 1 3, m 2 0, m 2 1, m 2 3, m 3 0, m 3 1, m 3 3]).det
  | 1, 2 => -(Mat3x3f.ofArray
      [m 0 0, m 0 1, m 0 3, m 2 0, m 2 1, m 2 3, m 3 0, m 3 1, m 3 3]).det
  | 2, 2 => (Mat3x3f.ofArray
      [m 0 0, m 0 1, m 0 3, m 1 0, m 1 1, m 1 3, m 3 0, m 3 1, m 3 3]).det
  | 3, 2 => -(Mat3x3f.ofArray
      [m 0 0, m 0 1, m 0 3, m 1 0, m 1 1, m 1 3, m 2 0, m 2 1, m 2 3]).det
  | 0, 3 => -(Mat3x3f.ofArray
      [m 1 0, m 1 1, m 1 2, m 2 0, m 2 1, m 2 2, m 3 0, m 3 1, m 3 2]).det
  | 1, 3 => (Mat3x3f.ofArray
      [m 0 0, m 0 1, m 0 2, m 2 0, m 2 1, m 2 2, m 3 0, m 3 1, m 3 2]).det
  | 2, 3 => -(Mat3x3f.ofArray
      [m 0 0, m 0 1, m 0 2, m 1 0, m 1 1, m 1 2, m 3 0, m 3 1, m 3 2]).det
  | 3, 3 => (Mat3x3f.ofArray
      [m 0 0, m 0 1, m 0 2, m 1 0, m 1 1, m 1 2, m 2 0, m 2 1, m 2 2]).det
  | _, _ => 0

/-- `Mat4x4f::det`: cofactor expansion along row 0. -/
def Mat4x4f.det (m : Mat4x4f) : ℚ :=
  m 0 0 * m.cofactor 0 0 + m 0 1 * m.cofactor 0 1 +
  m 0 2 * m.cofactor 0 2 + m 0 3 * m.cofactor 0 3

/-- `Mat4x4f::invert`: `None` when `|det| < f64::MIN_POSITIVE`, otherwise
the matrix built from the transposed cofactors divided by `det`. -/
def Mat4x4f.invert (m : Mat4x4f) : Option Mat4x4f :=
  let c00 := m.cofactor 0 0
  let c01 := m.cofactor 0 1
  let c02 := m.cofactor 0 2
  let c03 := m.cofactor 0 3
  let det := m 0 0 * c00 + m 0 1 * c01 + m 0 2 * c02 + m 0 3 * c03
  if |det| < minPositive then none
  else
    let c10 := m.cofactor 1 0
    let c11 := m.cofactor 1 1
    let c12 := m.cofactor 1 2
    let c13 := m.cofactor 1 3
    let c20 := m.cofactor 2 0
    let c21 := m.cofactor 2 1
    let c22 := m.cofactor 2 2
    let c23 := m.cofactor 2 3
    let c30 := m.cofactor 3 0
    let c31 := m.cofactor 3 1
    let c32 := m.cofactor 3 2
    let c33 := m.cofactor 3 3
    some (Mat4x4f.ofArray
      ([c00, c10, c20, c30, c01, c11, c21, c31,
        c02, c12, c22, c32, c03, c13, c23, c33].map (fun c => c / det)))

/-- `impl Mul for Mat4x4f`: the unrolled four-term inner product of the
source; entries outside the 4×4 range stay at the `Mat4x4f::new` zero. -/
def Mat4x4f.mul (a b : Mat4x4f) : Mat4x4f := fun r c =>
  if r < 4 ∧ c < 4 then
    a r 0 * b 0 c + a r 1 * b 1 c + a r 2 * b 2 c + a r 3 * b 3 c
  else 0

/-- `Mat4x1f`: a homogeneous 4×1 column as an index function. -/
abbrev Mat4x1f := Nat → ℚ

/-- `From<Vec3f> for Mat4x1f`: `[x, y, z, 1.0]`. -/
def Mat4x1f.ofVec3 (v : Vec3f) : Mat4x1f := fun r =>
  match r with
  | 0 => v.x
  | 1 => v.y
  | 2 => v.z
  | 3 => 1
  | _ => 0

/-- `From<Mat4x1f> for Vec3f`: the perspective divide by `w`.  With `w = 0`
the code produces IEEE `±∞`/NaN; here total rational division returns 0 —
no claim evaluates that case. -/
def Mat4x1f.toVec3f (m : Mat4x1f) : Vec3f :=
  Vec3f.new (m 0 / m 3) (m 1 / m 3) (m 2 / m 3)

/-- `impl Mul<Mat4x1f> for Mat4x4f`: the unrolled matrix–column product. -/
def Mat4x4f.mulVec (a : Mat4x4f) (v : Mat4x1f) : Mat4x1f := fun r =>
  if r < 4 then a r 0 * v 0 + a r 1 * v 1 + a r 2 * v 2 + a r 3 * v 3
  else 0

/-! ## Generic square matrices (`MatNxNf`, auxiliary `MatNxMf`) -/

/-- `MatNxMf` from `geometry.rs`: a general rows×cols workspace matrix; the
`Vec<f64>` buffer with `data[cols*r + c]` indexing is modelled as an index
function. -/
structure MatNxMf where
  rows : Nat
  cols : Nat
  data : Nat → Nat → ℚ

/-- `MatNxMf::swap_rows` (swaps columns `0..cols` of the two rows). -/
def MatNxMf.swapRows (m : MatNxMf) (r1 r2 : Nat) : MatNxMf :=
  { m with data := fun r c =>
      if c < m.cols then
        if r = r1 then m.data r2 c
        else if r = r2 then m.data r1 c
        else m.data r c
      else m.data r c }

/-- `MatNxMf::subtract_scaled`: `row[target] -= scalar * row[source]` on
columns `0..cols`. -/
def MatNxMf.subtractScaled (m : MatNxMf) (target source : Nat) (s : ℚ) : MatNxMf :=
  { m with data := fun r c =>
      if r = target ∧ c < m.cols then m.data r c - s * m.data source c
      else m.data r c }

/-- `MatNxNf`: the generic n×n matrix. -/
structure MatNxNf where
  dim : Nat
  data : Nat → Nat → ℚ

/-- `MatNxNf::new` on a row-major list (`data[dim*r + c]`). -/
def MatNxNf.ofList (dim : Nat) (l : List ℚ) : MatNxNf :=
  ⟨dim, fun r c => l.getD (dim * r + c) 0⟩

/-- The pivot search of `MatNxNf::det`: starting from `pivot_row = i`, take
the first `j` in `i+1..n` whose entry in column `i` is not negligible. -/
def MatNxNf.findPivot (aux : MatNxMf) (i n : Nat) : Nat :=
  match (List.range' (i + 1) (n - (i + 1))).find?
      (fun j => ! decide (|aux.data j i| < minPositive)) with
  | some j => j
  | none => i

/-- The main loop of `MatNxNf::det` over pivot indices `0..n-1`: at each
index, if the diagonal entry is negligible, search for a swap row (`none`
models the early `return 0.0` when there is none — note the source performs
the swap *without* negating the accumulated determinant); then multiply the
accumulated determinant by the pivot and eliminate below it. -/
def MatNxNf.detLoop (n : Nat) : List Nat → MatNxMf → ℚ → Option (MatNxMf × ℚ)
  | [], aux, d => some (aux, d)
  | i :: rest, aux, d =>
    let step? : Option MatNxMf :=
      if |aux.data i i| < minPositive then
        let p := MatNxNf.findPivot aux i n
        if p = i then none else some (aux.swapRows i p)
      else some aux
    match step? with
    | none => none
    | some aux1 =>
      let pivot := aux1.data i i
      let aux2 := (List.range' (i + 1) (n - (i + 1))).foldl
        (fun a j => a.subtractScaled j i (a.data j i / pivot)) aux1
      MatNxNf.detLoop n rest aux2 (d * pivot)

/-- `MatNxNf::det`: Gaussian elimination accumulating the product of
pivots; 0 on the singular early exit, and finally multiplied by the last
diagonal entry. -/
def MatNxNf.det (m : MatNxNf) : ℚ :=
  let n := m.dim
  let aux : MatNxMf := ⟨n, n, m.data⟩
  match MatNxNf.detLoop n (List.range (n - 1)) aux 1 with
  | none => 0
  | some (aux2, d) => d * aux2.data (n - 1) (n - 1)

/-! ## Mesh loader (`model.rs`)

Lines and tokens are modelled as `List Char` (`String::data`); the Rust
string splitters are re-implemented structurally so that kernel evaluation
works.  Error messages are `String`s built exactly as the source's
`format!` calls build them, except that the `: {err}` suffix a std parse
error would append is dropped (no claim observes those suffixes). -/

/-- Rust `str::split_once(sep)`: the pieces before and after the first
occurrence of `sep`, or `none` when `sep` does not occur. -/
def splitOnceChar (sep : Char) : List Char → Option (List Char × List Char)
  | [] => none
  | c :: rest =>
    if c = sep then some ([], rest)
    else (splitOnceChar sep rest).map (fun p => (c :: p.1, p.2))

/-- Rust `str::split(sep)`: splits at every occurrence of `sep`, keeping
empty pieces; always yields at least one piece. -/
def splitOnChar (sep : Char) : List Char → List (List Char)
  | [] => [[]]
  | c :: rest =>
    if c = sep then [] :: splitOnChar sep rest
    else
      match splitOnChar sep rest with
      | [] => [[c]]
      | t :: ts => (c :: t) :: ts

/-- Split at every character satisfying `p`, keeping empty pieces. -/
def splitOnPredChar (p : Char → Bool) : List Char → List (List Char)
  | [] => [[]]
  | c :: rest =>
    if p c then [] :: splitOnPredChar p rest
    else
      match splitOnPredChar p rest with
      | [] => [[c]]
      | t :: ts => (c :: t) :: ts

/-- Rust `str::split_whitespace`: split on whitespace, dropping empty
pieces (the source's additional `.filter(|s| !s.is_empty())` is a no-op on
top of this). -/
def splitWhitespaceChars (l : List Char) : List (List Char) :=
  (splitOnPredChar Char.isWhitespace l).filter (fun t => !t.isEmpty)

/-- The numeric value of a decimal digit character, if it is one. -/
def charDigit? (c : Char) : Option Nat :=
  if '0' ≤ c ∧ c ≤ '9' then some (c.toNat - '0'.toNat) else none

/-- Accumulate a non-empty all-digit token into a number. -/
def parseDigitsAux : List Char → Nat → Option Nat
  | [], acc => some acc
  | c :: r, acc =>
    match charDigit? c with
    | some d => parseDigitsAux r (acc * 10 + d)
    | none => none

/-- Rust `usize::from_str`: an optional `+` sign followed by one or more
digits and nothing else (overflow is not modelled; no claim exercises it). -/
def parseUsizeChars (l : List Char) : Option Nat :=
  match l with
  | '+' :: r => if r.isEmpty then none else parseDigitsAux r 0
  | _ => if l.isEmpty then none else parseDigitsAux l 0

/-- The longest digit prefix of a token, with the rest. -/
def takeDigits : List Char → List Nat × List Char
  | [] => ([], [])
  | c :: r =>
    match charDigit? c with
    | some d =>
      let p := takeDigits r
      (d :: p.1, p.2)
    | none => ([], c :: r)

/-- Value of a digit list read most-significant first. -/
def digitsVal (ds : List Nat) : Nat := ds.foldl (fun a d => a * 10 + d) 0

/-- Exponent suffix of a decimal float literal (after the `e`/`E`). -/
def parseExpSuffix (sgn mant : ℚ) (r : List Char) : Option ℚ :=
  let p : Bool × List Char :=
    match r with
    | '-' :: rr => (true, rr)
    | '+' :: rr => (false, rr)
    | _ => (false, r)
  let d := takeDigits p.2
  if d.1.isEmpty || !d.2.isEmpty then none
  else
    some (sgn * mant *
      (if p.1 then 1 / (10 : ℚ) ^ digitsVal d.1 else (10 : ℚ) ^ digitsVal d.1))

/-- Rust `f64::from_str` on ordinary decimal literals, with the value taken
exactly (IEEE rounding not modelled; the claims only parse exactly
representable inputs).  Grammar: `[sign] (digits [. digits] | . digits)
[e|E [sign] digits]`; `inf`/`NaN` forms are not modelled. -/
def parseF64Chars (l : List Char) : Option ℚ :=
  let s : ℚ × List Char :=
    match l with
    | '-' :: r => (-1, r)
    | '+' :: r => (1, r)
    | _ => (1, l)
  let ipp := takeDigits s.2
  let fpp : List Nat × List Char :=
    match ipp.2 with
    | '.' :: r => takeDigits r
    | _ => ([], ipp.2)
  if ipp.1.isEmpty ∧ fpp.1.isEmpty then none
  else
    let mant : ℚ := (digitsVal ipp.1 : ℚ) + (digitsVal fpp.1 : ℚ) / (10 : ℚ) ^ fpp.1.length
    match fpp.2 with
    | [] => some (s.1 * mant)
    | 'e' :: r => parseExpSuffix s.1 mant r
    | 'E' :: r => parseExpSuffix s.1 mant r
    | _ => none

/-- `Coordinate::parse` (`model.rs`): take the next token from the
whitespace iterator and parse it as `f64`. -/
def coordParse (name : String) :
    List (List Char) → Except String (ℚ × List (List Char))
  | [] => .error ("missing coordinate " ++ name)
  | s :: r =>
    match parseF64Chars s with
    | some q => .ok (q, r)
    | none => .error ("invalid coordinate " ++ name ++ " format")

/-- `parse_vec3f`. -/
def parseVec3f (l : List Char) : Except String Vec3f :=
  match coordParse "x" (splitWhitespaceChars l) with
  | .error e => .error e
  | .ok (x, i1) =>
    match coordParse "y" i1 with
    | .error e => .error e
    | .ok (y, i2) =>
      match coordParse "z" i2 with
      | .error e => .error e
      | .ok (z, _) => .ok (Vec3f.new x y z)

/-- `parse_vec_uv_2f`. -/
def parseVecUV2f (l : List Char) : Except String VecUV2f :=
  match coordParse "u" (splitWhitespaceChars l) with
  | .error e => .error e
  | .ok (u, i1) =>
    match coordParse "v" i1 with
    | .error e => .error e
    | .ok (v, _) => .ok (VecUV2f.new u v)

/-- `FaceIndex::Vertex.parse`: next token of the `/`-iterator, parsed as
`usize`; an exhausted iterator is `"missing vertex index"`. -/
def faceIndexVertex :
    List (List Char) → Except String (Nat × List (List Char))
  | [] => .error "missing vertex index"
  | s :: r =>
    match parseUsizeChars s with
    | some k => .ok (k, r)
    | none => .error "invalid vertex index format"

/-- `FaceIndex::Texture.parse`: like the vertex case but an *empty* token
means index 0 ("absent"); an exhausted iterator is
`"missing texture index"`. -/
def faceIndexTexture :
    List (List Char) → Except String (Nat × List (List Char))
  | [] => .error "missing texture index"
  | s :: r =>
    if s.isEmpty then .ok (0, r)
    else
      match parseUsizeChars s with
      | some k => .ok (k, r)
      | none => .error "invalid texture index format"

/-- `FaceIndex::Normal.parse`: like the texture case. -/
def faceIndexNormal :
    List (List Char) → Except String (Nat × List (List Char))
  | [] => .error "missing normal index"
  | s :: r =>
    if s.isEmpty then .ok (0, r)
    else
      match parseUsizeChars s with
      | some k => .ok (k, r)
      | none => .error "invalid normal index format"

/-- `Face` from `model.rs`. -/
structure Face where
  vertices : List Vec3f
  textures : List VecUV2f
  normals : List Vec3f
deriving DecidableEq

/-- One iteration of the corner loop of `Face::from`: split the corner at
`/`, resolve the vertex index (must be in `[1, len]`, else
`"face index out of bounds"`), then the texture and normal indices (0 or an
empty field means "absent" and is skipped, out-of-range is an error),
appending the referenced attributes to the accumulators. -/
def Face.cornerStep (vertices : List Vec3f) (textures : List VecUV2f)
    (normals : List Vec3f) (acc : List Vec3f × List VecUV2f × List Vec3f)
    (part : List Char) :
    Except String (List Vec3f × List VecUV2f × List Vec3f) :=
  let indices := splitOnChar '/' part
  match faceIndexVertex indices with
  | .error e => .error e
  | .ok (vi, it1) =>
    if vi = 0 ∨ vi > vertices.length then
      .error ("face index out of bounds: " ++ toString vi)
    else
      let accV' := acc.1 ++ [vertices.getD (vi - 1) (Vec3f.new 0 0 0)]
      match faceIndexTexture it1 with
      | .error e => .error e
      | .ok (ti, it2) =>
        if ti > textures.length then
          .error ("texture index out of bounds: " ++ toString ti)
        else
          let accT' :=
            if ti > 0 then acc.2.1 ++ [textures.getD (ti - 1) (VecUV2f.new 0 0)] else acc.2.1
          match faceIndexNormal it2 with
          | .error e => .error e
          | .ok (ni, _) =>
            if ni > normals.length then
              .error ("normal index out of bounds: " ++ toString ni)
            else
              let accN' :=
                if ni > 0 then acc.2.2 ++ [normals.getD (ni - 1) (Vec3f.new 0 0 0)] else acc.2.2
              .ok (accV', accT', accN')

/-- The corner loop of `Face::from` (the `for part in parts` loop, the `?`
operator stopping at the first error). -/
def Face.fromCorners (corners : List (List Char)) (vertices : List Vec3f)
    (textures : List VecUV2f) (normals : List Vec3f)
    (acc : List Vec3f × List VecUV2f × List Vec3f) :
    Except String (List Vec3f × List VecUV2f × List Vec3f) :=
  match corners with
  | [] => .ok acc
  | part :: rest =>
    match Face.cornerStep vertices textures normals acc part with
    | .error e => .error e
    | .ok acc' => Face.fromCorners rest vertices textures normals acc'

/-- `Face::from`: run the corner loop, then clear an attribute list whose
length does not match the vertex count (`std::mem::swap` with a fresh
vector). -/
def Face.fromLine (line : List Char) (vertices : List Vec3f)
    (textures : List VecUV2f) (normals : List Vec3f) : Except String Face :=
  match Face.fromCorners (splitWhitespaceChars line) vertices textures normals ([], [], []) with
  | .error e => .error e
  | .ok (fv, ft, fn) =>
    .ok ⟨fv, if ft.length ≠ fv.length then [] else ft,
         if fn.length ≠ fv.length then [] else fn⟩

/-- The parse-error constructors of `RenderError` (`errors.rs`); the
SDL/window/IO constructors concern external collaborators and are not
modelled. -/
inductive RenderError where
  | VertexParsingError (msg : String)
  | NormalParsingError (msg : String)
  | TextureParsingError (msg : String)
  | FaceParsingError (msg : String)
deriving DecidableEq

/-- The accumulating state of `Model::from_file`'s line loop. -/
structure LoaderState where
  vertices : List Vec3f
  normals : List Vec3f
  textures : List VecUV2f
  faces : List Face
deriving DecidableEq

/-- `Model`. -/
structure Model where
  faces : List Face
deriving DecidableEq

deriving instance DecidableEq for Except

/-- One iteration of `Model::from_file`'s loop: split the line at the first
space (no space: the line is skipped); dispatch on the directive (`v`,
`vn`, `vt`, `f`, anything else skipped), tagging any error with the 1-based
line number. -/
def Model.processLine (lineIdx : Nat) (l : List Char) (st : LoaderState) :
    Except RenderError LoaderState :=
  match splitOnceChar ' ' l with
  | none => .ok st
  | some (first, rest) =>
    if first = ['v'] then
      match parseVec3f rest with
      | .ok vtx => .ok { st with vertices := st.vertices ++ [vtx] }
      | .error msg =>
        .error (.VertexParsingError ("at line " ++ toString (lineIdx + 1) ++ ": " ++ msg))
    else if first = ['v', 'n'] then
      match parseVec3f rest with
      | .ok nrm => .ok { st with normals := st.normals ++ [nrm.normalize] }
      | .error msg =>
        .error (.NormalParsingError ("at line " ++ toString (lineIdx + 1) ++ ": " ++ msg))
    else if first = ['v', 't'] then
      match parseVecUV2f rest with
      | .ok tex => .ok { st with textures := st.textures ++ [tex] }
      | .error msg =>
        .error (.TextureParsingError ("at line " ++ toString (lineIdx + 1) ++ ": " ++ msg))
    else if first = ['f'] then
      match Face.fromLine rest st.vertices st.textures st.normals with
      | .ok face => .ok { st with faces := st.faces ++ [face] }
      | .error msg =>
        .error (.FaceParsingError ("at line " ++ toString (lineIdx + 1) ++ ": " ++ msg))
    else .ok st

/-- The enumerated line loop of `Model::from_file` (the `?` operator stops
at the first error). -/
def Model.processLines (lineIdx : Nat) (ls : List (List Char)) (st : LoaderState) :
    Except RenderError LoaderState :=
  match ls with
  | [] => .ok st
  | l :: rest =>
    match Model.processLine lineIdx l st with
    | .error e => .error e
    | .ok st' => Model.processLines (lineIdx + 1) rest st'

/-- `Model::from_file`, over the already-read list of lines (file I/O is
external). -/
def Model.fromLines (ls : List (List Char)) : Except RenderError Model :=
  match Model.processLines 0 ls ⟨[], [], [], []⟩ with
  | .error e => .error e
  | .ok st => .ok ⟨st.faces⟩

/-! ## Rasterizer (`renderer.rs`)

The SDL canvas is modelled by the list of pixel writes a call performs
(each entry `(x, y, color)` standing for one `set_draw_color` +
`draw_fpoint` pair, which cannot fail in the model); the depth buffer
`Vec<f64>` is modelled as a function `Nat → ℚ` over the row-major index
`x + width * y`. -/

/-- `Resolution` from `common.rs`. -/
structure Resolution where
  width : Nat
  height : Nat
deriving DecidableEq

/-- Truncation toward zero of a rational (the rounding of Rust's float→int
`as` casts for in-range values). -/
def ratTrunc (q : ℚ) : Int := q.num / (q.den : Int)

/-- Rust `f64 as u32`: saturating cast, truncating toward zero (NaN, which
would go to 0, is not modelled). -/
def toU32 (q : ℚ) : Nat :=
  if q < 0 then 0 else min 4294967295 (ratTrunc q).toNat

/-- Rust `f64::clamp(x, 0.0, 255.0) as u8`. -/
def clampColorByte (q : ℚ) : Nat := (ratTrunc (max 0 (min q 255))).toNat

/-- An RGB color byte triple (`sdl2::pixels::Color`). -/
abbrev Color := Nat × Nat × Nat

/-- The observable state of a rasterization call: the depth buffer and the
list of pixel writes performed so far. -/
abbrev RenderState := (Nat → ℚ) × List (Nat × Nat × Color)

/-- The integer bounding box of `render_triangle_fn`, clamped to the
canvas: the source folds the three vertices over the four running
min/max registers started at `(width-1, height-1, 0, 0)`. -/
structure BBox where
  minX : Nat
  minY : Nat
  maxX : Nat
  maxY : Nat
deriving DecidableEq

/-- One vertex's update of the four min/max registers of
`render_triangle_fn`'s bounding-box computation. -/
def Renderer.bboxStep (res : Resolution) (b : BBox) (v : Vec3f) : BBox :=
  ⟨max 0 (min b.minX (toU32 v.x)), max 0 (min b.minY (toU32 v.y)),
   min (res.width - 1) (max b.maxX (toU32 v.x)),
   min (res.height - 1) (max b.maxY (toU32 v.y))⟩

/-- The bounding-box fold of `render_triangle_fn`. -/
def Renderer.bbox (res : Resolution) (tri : Triangle) : BBox :=
  tri.vertices.foldl (Renderer.bboxStep res) ⟨res.width - 1, res.height - 1, 0, 0⟩

/-- The interpolated depth `Σ vertex.z * weight` of `render_triangle_fn`
(`vertices.iter().zip(bcs).map(|(v, g)| v.z * g).sum()`). -/
def zInterp (t : Triangle) (bcs : ℚ × ℚ × ℚ) : ℚ :=
  (t.vertices.zip [bcs.1, bcs.2.1, bcs.2.2]).foldl (fun s vg => s + vg.1.z * vg.2) 0

/-- The body of the per-pixel loop of `render_triangle_fn`: evaluate the
barycentric coordinates at the pixel center, and on containment run the
depth test `zbuffer[index] < z`; on success update the depth buffer and
emit one pixel write. -/
def Renderer.pixelStep (res : Resolution) (tri : Triangle)
    (colorFn : ℚ × ℚ × ℚ → Color) (st : RenderState) (p : Nat × Nat) : RenderState :=
  match tri.barycentric (Vec3f.new (p.1 : ℚ) (p.2 : ℚ) 0) with
  | none => st
  | some bcs =>
    let z := zInterp tri bcs
    let index := p.1 + res.width * p.2
    if st.1 index < z then
      (fun i => if i = index then z else st.1 i, st.2 ++ [(p.1, p.2, colorFn bcs)])
    else st

/-- `Renderer::render_triangle_fn`: the two nested inclusive pixel loops
over the clamped bounding box. -/
def Renderer.renderTriangleFn (res : Resolution) (tri : Triangle)
    (colorFn : ℚ × ℚ × ℚ → Color) (zbuffer : Nat → ℚ) : RenderState :=
  let bb := Renderer.bbox res tri
  (List.range' bb.minX (bb.maxX + 1 - bb.minX)).foldl
    (fun st x =>
      (List.range' bb.minY (bb.maxY + 1 - bb.minY)).foldl
        (fun st y => Renderer.pixelStep res tri colorFn st (x, y)) st)
    (zbuffer, [])

/-- The interpolating color closure of `Renderer::render_triangle`: the
barycentric combination of the three vertex colors, each channel clamped
to `[0, 255]` and cast to a byte. -/
def Renderer.triColorFn (colors : Vec3f × Vec3f × Vec3f) (bcs : ℚ × ℚ × ℚ) : Color :=
  let color := colors.1 * bcs.1 + colors.2.1 * bcs.2.1 + colors.2.2 * bcs.2.2
  (clampColorByte color.x, clampColorByte color.y, clampColorByte color.z)

/-- `Renderer::render_triangle`. -/
def Renderer.renderTriangle (res : Resolution) (tri : Triangle)
    (colors : Vec3f × Vec3f × Vec3f) (zbuffer : Nat → ℚ) : RenderState :=
  Renderer.renderTriangleFn res tri (Renderer.triColorFn colors) zbuffer

/-- `Renderer::render_face`: skip non-triangles; transform the three
vertices by `view_port * projection` with perspective divide; then either
the fixed RGB debug colors (when the face does not carry exactly 3
normals) or Lambertian white-scaled colors — kept only if all 3 per-vertex
intensities are strictly positive, otherwise the face is skipped. -/
def Renderer.renderFace (res : Resolution) (light : Vec3f) (face : Face)
    (viewPort projection : Mat4x4f) (zbuffer : Nat → ℚ) : RenderState :=
  if face.vertices.length ≠ 3 then (zbuffer, [])
  else
    let transform := fun v =>
      (Mat4x4f.mulVec (Mat4x4f.mul viewPort projection) (Mat4x1f.ofVec3 v)).toVec3f
    let p1 := transform (face.vertices.getD 0 (Vec3f.new 0 0 0))
    let p2 := transform (face.vertices.getD 1 (Vec3f.new 0 0 0))
    let p3 := transform (face.vertices.getD 2 (Vec3f.new 0 0 0))
    let triangle := Triangle.new p1 p2 p3
    if face.normals.length ≠ 3 then
      Renderer.renderTriangle res triangle
        (Vec3f.new 255 0 0, Vec3f.new 0 255 0, Vec3f.new 0 0 255) zbuffer
    else
      let intensities :=
        (face.normals.map (fun n => light.dot n)).filter (fun i => decide (0 < i))
      if intensities.length = 3 then
        let colors := intensities.map (fun i => Vec3f.new 255 255 255 * i)
        Renderer.renderTriangle res triangle
          (colors.getD 0 (Vec3f.new 0 0 0), colors.getD 1 (Vec3f.new 0 0 0),
           colors.getD 2 (Vec3f.new 0 0 0)) zbuffer
      else (zbuffer, [])

/-- A frame's worth of rasterization calls: fold `render_triangle_fn` over
a list of (triangle, color closure) pairs, threading the depth buffer. -/
def Renderer.renderSeq (res : Resolution) (calls : List (Triangle × (ℚ × ℚ × ℚ → Color)))
    (zbuffer : Nat → ℚ) : Nat → ℚ :=
  calls.foldl (fun zb c => (Renderer.renderTriangleFn res c.1 c.2 zb).1) zbuffer

/-- The row-major list of pixels visited by the nested loops of
`render_triangle_fn` (outer `x`, inner `y`). -/
def Renderer.pixList (res : Resolution) (tri : Triangle) : List (Nat × Nat) :=
  let bb := Renderer.bbox res tri
  (List.range' bb.minX (bb.maxX + 1 - bb.minX)).flatMap
    (fun x => (List.range' bb.minY (bb.maxY + 1 - bb.minY)).map (fun y => (x, y)))

/-- The value of the depth buffer at a visited pixel after the call,
expressed against the buffer as it stood at call entry. -/
def pixZSpec (res : Resolution) (tri : Triangle) (zb : Nat → ℚ) (p : Nat × Nat) : ℚ :=
  match tri.barycentric (Vec3f.new (p.1 : ℚ) (p.2 : ℚ) 0) with
  | none => zb (p.1 + res.width * p.2)
  | some bcs =>
    if zb (p.1 + res.width * p.2) < zInterp tri bcs then zInterp tri bcs
    else zb (p.1 + res.width * p.2)

/-- The pixel write (if any) emitted at a visited pixel, expressed against
the buffer as it stood at call entry. -/
def pixWSpec (res : Resolution) (tri : Triangle) (cf : ℚ × ℚ × ℚ → Color)
    (zb : Nat → ℚ) (p : Nat × Nat) : Option (Nat × Nat × Color) :=
  match tri.barycentric (Vec3f.new (p.1 : ℚ) (p.2 : ℚ) 0) with
  | none => none
  | some bcs =>
    if zb (p.1 + res.width * p.2) < zInterp tri bcs then some (p.1, p.2, cf bcs)
    else none


/-! ## Claim theorems -/

/-- Sanity: the literal really is 1 / 2^1022. -/
theorem minPositive_eq_pow : minPositive = 1 / 2 ^ 1022 := by
  norm_num [minPositive]


/-- When the divisor is nonzero, IEEE division is the exact finite
quotient. -/
theorem fdiv_eq_fin (a b : ℚ) (h : b ≠ 0) : fdiv a b = .fin (a / b) := by
  unfold fdiv
  rw [if_neg h]

/-- Dividing by zero never passes the NaN/range guard of
`Triangle::barycentric`: the result is NaN (numerator 0), `+∞` (positive
numerator, rejected by `> 1`) or `-∞` (negative numerator, rejected by
`< 0`). -/
theorem fdiv_zero_guard (a : ℚ) :
    ((fdiv a 0).isNan || (fdiv a 0).ltq 0 || (fdiv a 0).gtq 1) = true := by
  unfold fdiv
  by_cases h0 : a = 0
  · simp [h0, FVal.isNan]
  · by_cases hpos : 0 < a
    · simp [h0, hpos, FVal.isNan, FVal.ltq, FVal.gtq]
    · simp [h0, hpos, FVal.isNan, FVal.ltq, FVal.gtq]

/-- C4: for every `Triangle` whose precomputed basis determinant `det`
equals 0, `Triangle::barycentric` returns `None` for every query point:
the division by `det` produces NaN or `±∞`, which the NaN/range check
rejects — no separate degenerate-triangle branch exists or is needed. -/
theorem C4_degenerate_barycentric_none (t : Triangle) (p : Vec3f)
    (h : t.det = 0) : t.barycentric p = none := by
  simp only [Triangle.barycentric, h, fdiv_zero_guard, if_true]

/-- Witness for C4: the triangle built from three copies of the same point
has `det = 0`, and a sample barycentric query returns `None`. -/
theorem C4_degenerate_barycentric_none_witness :
    (Triangle.new (Vec3f.new 1 2 3) (Vec3f.new 1 2 3) (Vec3f.new 1 2 3)).det = 0 ∧
    (Triangle.new (Vec3f.new 1 2 3) (Vec3f.new 1 2 3) (Vec3f.new 1 2 3)).barycentric
        (Vec3f.new 4 5 6) = none :=
  ⟨by decide, C4_degenerate_barycentric_none _ _ (by decide)⟩

/-- C10: `Triangle::barycentric` range-checks only `v` and `w`, never the
first coordinate `1 - v - w`.  For the right triangle `(0,0),(1,0),(0,1)`
(non-degenerate: `det = 1 ≠ 0`) and the query point `(1,1)` — strictly
outside, beyond the `p2`–`p3` edge, with `v = w = 1 ∈ [0,1]` and
`v + w = 2 > 1` — the code reports containment with a strictly negative
first coordinate. -/
theorem C10_outside_point_reported_contained :
    (Triangle.new (Vec3f.new 0 0 0) (Vec3f.new 1 0 0) (Vec3f.new 0 1 0)).det ≠ 0 ∧
    (Triangle.new (Vec3f.new 0 0 0) (Vec3f.new 1 0 0) (Vec3f.new 0 1 0)).barycentric
        (Vec3f.new 1 1 0) = some (-1, 1, 1) ∧
    (-1 : ℚ) < 0 := by
  refine ⟨by decide, by decide, by norm_num⟩

/-- C2 (counterexample): the source `v 0 0 0` / `v 1 0 0` / `v 0 1 0` /
`f 1 2 3` does **not** load: a face corner written as a bare vertex index
with no `/` separators exhausts the corner's `/`-iterator, so
`FaceIndex::Texture.parse` fails with "missing texture index" and loading
stops with a face parsing error at line 4. -/
theorem C2_counterexample :
    Model.fromLines ["v 0 0 0".data, "v 1 0 0".data, "v 0 1 0".data, "f 1 2 3".data] =
      .error (.FaceParsingError "at line 4: missing texture index") := by
  decide

/-- C2 (amended): the bare-corner source fails as in `C2_counterexample`;
writing the corners with explicit empty texture/normal fields
(`f 1// 2// 3//`) loads and yields exactly one face whose vertex list has
length 3 and whose texture and normal lists are both empty. -/
theorem C2_amended_loader :
    Model.fromLines ["v 0 0 0".data, "v 1 0 0".data, "v 0 1 0".data, "f 1 2 3".data] =
      .error (.FaceParsingError "at line 4: missing texture index") ∧
    Model.fromLines ["v 0 0 0".data, "v 1 0 0".data, "v 0 1 0".data, "f 1// 2// 3//".data] =
      .ok ⟨[⟨[Vec3f.new 0 0 0, Vec3f.new 1 0 0, Vec3f.new 0 1 0], [], []⟩]⟩ := by
  exact ⟨by decide, by decide⟩

/-- C6: a successfully parsed face is all-or-nothing in each per-corner
attribute list: if the collected texture (resp. normal) count differs from
the collected vertex count the whole list is cleared, so the face never
carries a partially filled `textures` or `normals` list. -/
theorem C6_face_attributes_all_or_nothing (line : List Char) (vs : List Vec3f)
    (ts : List VecUV2f) (ns : List Vec3f) (f : Face)
    (h : Face.fromLine line vs ts ns = .ok f) :
    (f.textures.length = f.vertices.length ∨ f.textures.length = 0) ∧
    (f.normals.length = f.vertices.length ∨ f.normals.length = 0) := by
  unfold Face.fromLine at h
  cases hc : Face.fromCorners (splitWhitespaceChars line) vs ts ns ([], [], []) with
  | error e => rw [hc] at h; exact absurd h (by simp)
  | ok r =>
    rw [hc] at h
    obtain ⟨fv, ft, fn⟩ := r
    injection h with h
    subst h
    constructor
    · by_cases h1 : ft.length ≠ fv.length
      · right
        simp [h1]
      · left
        simp only [if_neg h1]
        exact not_not.mp h1
    · by_cases h2 : fn.length ≠ fv.length
      · right
        simp [h2]
      · left
        simp only [if_neg h2]
        exact not_not.mp h2

/-- Witness for C6: a concrete successful parse (corners `1// 2// 3//`
against three vertices) satisfies the all-or-nothing invariant. -/
theorem C6_face_attributes_all_or_nothing_witness :
    Face.fromLine "1// 2// 3//".data
        [Vec3f.new 0 0 0, Vec3f.new 1 0 0, Vec3f.new 0 1 0] [] [] =
      .ok ⟨[Vec3f.new 0 0 0, Vec3f.new 1 0 0, Vec3f.new 0 1 0], [], []⟩ ∧
    (((⟨[Vec3f.new 0 0 0, Vec3f.new 1 0 0, Vec3f.new 0 1 0], [], []⟩ : Face).textures.length =
        (⟨[Vec3f.new 0 0 0, Vec3f.new 1 0 0, Vec3f.new 0 1 0], [], []⟩ : Face).vertices.length ∨
      (⟨[Vec3f.new 0 0 0, Vec3f.new 1 0 0, Vec3f.new 0 1 0], [], []⟩ : Face).textures.length = 0) ∧
     ((⟨[Vec3f.new 0 0 0, Vec3f.new 1 0 0, Vec3f.new 0 1 0], [], []⟩ : Face).normals.length =
        (⟨[Vec3f.new 0 0 0, Vec3f.new 1 0 0, Vec3f.new 0 1 0], [], []⟩ : Face).vertices.length ∨
      (⟨[Vec3f.new 0 0 0, Vec3f.new 1 0 0, Vec3f.new 0 1 0], [], []⟩ : Face).normals.length = 0)) :=
  ⟨by decide,
   C6_face_attributes_all_or_nothing "1// 2// 3//".data
     [Vec3f.new 0 0 0, Vec3f.new 1 0 0, Vec3f.new 0 1 0] [] []
     ⟨[Vec3f.new 0 0 0, Vec3f.new 1 0 0, Vec3f.new 0 1 0], [], []⟩ (by decide)⟩

/-- C1: the claim says `MatNxNf::det` negates the accumulated pivot
product on every row swap, so the permutation matrix obtained by swapping
the two rows of the 2×2 identity should have determinant -1.  The code
performs the swap *without* negating the accumulator and returns +1 there,
while the mathematical determinant of that matrix is -1 — the sign flip
the spec demands is missing from the code. -/
theorem C1_matnxnf_det_swap_sign_bug :
    (MatNxNf.ofList 2 [0, 1, 1, 0]).det = 1 ∧
    Matrix.det !![(0 : ℚ), 1; 1, 0] = -1 := by
  constructor
  · decide
  · rw [Matrix.det_fin_two_of]
    norm_num

/-- C5: `Mat3x3f::invert` and `Mat4x4f::invert` return `None` exactly when
the row-0 cofactor-expansion determinant satisfies `|det| < ε` with
`ε = f64::MIN_POSITIVE`, and otherwise `Some` of the transposed cofactor
matrix (the adjugate) divided entrywise by `det` (stated on the meaningful
3×3 / 4×4 index range of the index-function model). -/
theorem C5_fixed_invert_threshold_adjugate :
    (∀ m : Mat3x3f,
      (m.invert = none ↔ |m.det| < minPositive) ∧
      (¬ |m.det| < minPositive →
        ∃ inv, m.invert = some inv ∧
          ∀ r c, r < 3 → c < 3 → inv r c = m.cofactor c r / m.det)) ∧
    (∀ m : Mat4x4f,
      (m.invert = none ↔ |m.det| < minPositive) ∧
      (¬ |m.det| < minPositive →
        ∃ inv, m.invert = some inv ∧
          ∀ r c, r < 4 → c < 4 → inv r c = m.cofactor c r / m.det)) := by
  constructor
  · intro m
    constructor
    · simp only [Mat3x3f.invert, Mat3x3f.det]
      split_ifs with h
      · simp [h]
      · simp [h]
    · intro h
      simp only [Mat3x3f.det] at h
      simp only [Mat3x3f.invert]
      rw [if_neg h]
      refine ⟨_, rfl, ?_⟩
      intro r c hr hc
      interval_cases r <;> interval_cases c <;> rfl
  · intro m
    constructor
    · simp only [Mat4x4f.invert, Mat4x4f.det]
      split_ifs with h
      · simp [h]
      · simp [h]
    · intro h
      simp only [Mat4x4f.det] at h
      simp only [Mat4x4f.invert]
      rw [if_neg h]
      refine ⟨_, rfl, ?_⟩
      intro r c hr hc
      interval_cases r <;> interval_cases c <;> rfl

/-- Witness for C5: both identity matrices are above the threshold and
their inverses agree with the adjugate-over-det formula. -/
theorem C5_fixed_invert_threshold_adjugate_witness :
    (¬ |Mat3x3f.det Mat3x3f.identity| < minPositive ∧
      ∃ inv, Mat3x3f.invert Mat3x3f.identity = some inv ∧
        ∀ r c, r < 3 → c < 3 →
          inv r c = Mat3x3f.cofactor Mat3x3f.identity c r / Mat3x3f.det Mat3x3f.identity) ∧
    (¬ |Mat4x4f.det Mat4x4f.identity| < minPositive ∧
      ∃ inv, Mat4x4f.invert Mat4x4f.identity = some inv ∧
        ∀ r c, r < 4 → c < 4 →
          inv r c = Mat4x4f.cofactor Mat4x4f.identity c r / Mat4x4f.det Mat4x4f.identity) := by
  constructor
  · have h : ¬ |Mat3x3f.det Mat3x3f.identity| < minPositive := by decide
    exact ⟨h, (C5_fixed_invert_threshold_adjugate.1 Mat3x3f.identity).2 h⟩
  · have h : ¬ |Mat4x4f.det Mat4x4f.identity| < minPositive := by decide
    exact ⟨h, (C5_fixed_invert_threshold_adjugate.2 Mat4x4f.identity).2 h⟩

/-- `Vec3f::dot` is commutative. -/
theorem Vec3f.dot_comm (a b : Vec3f) : a.dot b = b.dot a := by
  unfold Vec3f.dot
  ring

/-- Unfolding of the `Sub` instance on `Vec3f`. -/
theorem Vec3f.sub_def (a b : Vec3f) :
    a - b = Vec3f.new (a.x - b.x) (a.y - b.y) (a.z - b.z) := rfl

/-- Evaluation rule for `Triangle::barycentric` on a non-degenerate
triangle: when both barycentric numerators factor as `a * det` and
`b * det` with `a, b ∈ [0, 1]`, the query returns `some (1-a-b, a, b)`. -/
theorem barycentric_eval (t : Triangle) (p : Vec3f) (hdet : t.det ≠ 0) (a b : ℚ)
    (ha : t.v0.dot (p - t.p1) * t.d11 - t.d01 * t.v1.dot (p - t.p1) = a * t.det)
    (hb : t.d00 * t.v1.dot (p - t.p1) - t.v0.dot (p - t.p1) * t.d01 = b * t.det)
    (ha0 : 0 ≤ a) (ha1 : a ≤ 1) (hb0 : 0 ≤ b) (hb1 : b ≤ 1) :
    t.barycentric p = some (1 - a - b, a, b) := by
  have g1 : ((FVal.fin a).isNan || (FVal.fin a).ltq 0 || (FVal.fin a).gtq 1) = false := by
    simp only [FVal.isNan, FVal.ltq, FVal.gtq, Bool.false_or,
      Bool.or_eq_false_iff, decide_eq_false_iff_not, not_lt]
    exact ⟨ha0, ha1⟩
  have g2 : ((FVal.fin b).isNan || (FVal.fin b).ltq 0 || (FVal.fin b).gtq 1) = false := by
    simp only [FVal.isNan, FVal.ltq, FVal.gtq, Bool.false_or,
      Bool.or_eq_false_iff, decide_eq_false_iff_not, not_lt]
    exact ⟨hb0, hb1⟩
  simp only [Triangle.barycentric]
  rw [ha, hb, fdiv_eq_fin _ _ hdet, fdiv_eq_fin _ _ hdet,
    mul_div_cancel_right₀ _ hdet, mul_div_cancel_right₀ _ hdet, g1, g2]
  simp

/-- C9: on a non-degenerate triangle (`det ≠ 0`), `barycentric` at the
triangle's own vertices returns `(1,0,0)`, `(0,1,0)`, `(0,0,1)` in matching
order, and whenever `barycentric` returns `Some` its three components sum
to 1. -/
theorem C9_barycentric_vertices_sum_one (p1 p2 p3 : Vec3f)
    (h : (Triangle.new p1 p2 p3).det ≠ 0) :
    (Triangle.new p1 p2 p3).barycentric p1 = some (1, 0, 0) ∧
    (Triangle.new p1 p2 p3).barycentric p2 = some (0, 1, 0) ∧
    (Triangle.new p1 p2 p3).barycentric p3 = some (0, 0, 1) ∧
    (∀ p a b c,
      (Triangle.new p1 p2 p3).barycentric p = some (a, b, c) → a + b + c = 1) := by
  refine ⟨?_, ?_, ?_, ?_⟩
  · have he := barycentric_eval (Triangle.new p1 p2 p3) p1 h 0 0
      ?_ ?_ le_rfl zero_le_one le_rfl zero_le_one
    · simpa using he
    · simp only [Triangle.new, Vec3f.sub_def, Vec3f.dot, Vec3f.new]
      ring
    · simp only [Triangle.new, Vec3f.sub_def, Vec3f.dot, Vec3f.new]
      ring
  · have he := barycentric_eval (Triangle.new p1 p2 p3) p2 h 1 0
      ?_ ?_ zero_le_one le_rfl le_rfl zero_le_one
    · simpa using he
    · simp only [Triangle.new, Vec3f.sub_def, Vec3f.dot, Vec3f.new]
      ring
    · simp only [Triangle.new, Vec3f.sub_def, Vec3f.dot, Vec3f.new]
      ring
  · have he := barycentric_eval (Triangle.new p1 p2 p3) p3 h 0 1
      ?_ ?_ le_rfl zero_le_one zero_le_one le_rfl
    · simpa using he
    · simp only [Triangle.new, Vec3f.sub_def, Vec3f.dot, Vec3f.new]
      ring
    · simp only [Triangle.new, Vec3f.sub_def, Vec3f.dot, Vec3f.new]
      ring
  · intro p a b c hp
    simp only [Triangle.barycentric] at hp
    split at hp
    · exact absurd hp (by simp)
    · split at hp
      · exact absurd hp (by simp)
      · split at hp
        · simp only [Option.some.injEq, Prod.mk.injEq] at hp
          obtain ⟨h1, h2, h3⟩ := hp
          subst h1 h2 h3
          ring
        · exact absurd hp (by simp)

/-- Witness for C9: the right triangle `(0,0),(1,0),(0,1)` has `det = 1 ≠ 0`
and satisfies all four conclusions. -/
theorem C9_barycentric_vertices_sum_one_witness :
    (Triangle.new (Vec3f.new 0 0 0) (Vec3f.new 1 0 0) (Vec3f.new 0 1 0)).det ≠ 0 ∧
    ((Triangle.new (Vec3f.new 0 0 0) (Vec3f.new 1 0 0) (Vec3f.new 0 1 0)).barycentric
        (Vec3f.new 0 0 0) = some (1, 0, 0) ∧
     (Triangle.new (Vec3f.new 0 0 0) (Vec3f.new 1 0 0) (Vec3f.new 0 1 0)).barycentric
        (Vec3f.new 1 0 0) = some (0, 1, 0) ∧
     (Triangle.new (Vec3f.new 0 0 0) (Vec3f.new 1 0 0) (Vec3f.new 0 1 0)).barycentric
        (Vec3f.new 0 1 0) = some (0, 0, 1) ∧
     (∀ p a b c,
       (Triangle.new (Vec3f.new 0 0 0) (Vec3f.new 1 0 0) (Vec3f.new 0 1 0)).barycentric p =
         some (a, b, c) → a + b + c = 1)) :=
  ⟨by decide,
   C9_barycentric_vertices_sum_one (Vec3f.new 0 0 0) (Vec3f.new 1 0 0) (Vec3f.new 0 1 0)
     (by decide)⟩

/-- The corner loop consumes an already-successful prefix of corners and
continues from its accumulator. -/
theorem Face.fromCorners_append (cpre rest : List (List Char)) (vs : List Vec3f)
    (ts : List VecUV2f) (ns : List Vec3f)
    (acc acc' : List Vec3f × List VecUV2f × List Vec3f)
    (h : Face.fromCorners cpre vs ts ns acc = .ok acc') :
    Face.fromCorners (cpre ++ rest) vs ts ns acc = Face.fromCorners rest vs ts ns acc' := by
  induction cpre generalizing acc with
  | nil =>
    simp only [Face.fromCorners] at h
    injection h with h
    subst h
    rfl
  | cons c cs ih =>
    simp only [Face.fromCorners, List.cons_append] at h ⊢
    cases hcs : Face.cornerStep vs ts ns acc c with
    | error e => rw [hcs] at h; exact absurd h (by simp)
    | ok acc2 =>
      rw [hcs] at h
      exact ih acc2 h

/-- The line loop of `Model::from_file` consumes an already-successful
prefix of lines and continues from its state, with the line counter
advanced by the prefix length. -/
theorem Model.processLines_append (as bs : List (List Char)) (idx : Nat)
    (st st' : LoaderState)
    (h : Model.processLines idx as st = .ok st') :
    Model.processLines idx (as ++ bs) st = Model.processLines (idx + as.length) bs st' := by
  induction as generalizing idx st with
  | nil =>
    simp only [Model.processLines] at h
    injection h with h
    subst h
    simp
  | cons l ls ih =>
    simp only [Model.processLines, List.cons_append, List.length_cons] at h ⊢
    cases hl : Model.processLine idx l st with
    | error e => rw [hl] at h; exact absurd h (by simp)
    | ok st2 =>
      rw [hl] at h
      show Model.processLines (idx + 1) (ls ++ bs) st2 =
        Model.processLines (idx + (ls.length + 1)) bs st'
      rw [ih (idx + 1) st2 h]
      congr 1
      omega

/-- C7: when parsing reaches a face line one of whose corners references a
vertex index `k` outside `[1, number-of-vertices-parsed-so-far]` (including
`k = 0`), with the preceding corners of that line all in range,
`Model::from_file` fails with a `FaceParsingError` whose message carries the
1-based source line number of that face line ("at line N: face index out of
bounds: k"); the whole load returns this error, so no partial `Model` is
produced. -/
theorem C7_face_index_out_of_bounds_error (pre post : List (List Char))
    (st : LoaderState) (faceLine rest : List Char) (cpre cpost : List (List Char))
    (c : List Char) (acc : List Vec3f × List VecUV2f × List Vec3f)
    (s0 : List Char) (tl : List (List Char)) (k : Nat)
    (hpre : Model.processLines 0 pre ⟨[], [], [], []⟩ = .ok st)
    (hsplit : splitOnceChar ' ' faceLine = some (['f'], rest))
    (hcorners : splitWhitespaceChars rest = cpre ++ c :: cpost)
    (hloop : Face.fromCorners cpre st.vertices st.textures st.normals ([], [], []) = .ok acc)
    (hidx : splitOnChar '/' c = s0 :: tl)
    (hk : parseUsizeChars s0 = some k)
    (hoob : k = 0 ∨ k > st.vertices.length) :
    Model.fromLines (pre ++ faceLine :: post) =
      .error (.FaceParsingError ("at line " ++ toString (pre.length + 1) ++ ": " ++
        ("face index out of bounds: " ++ toString k))) := by
  have hstep : Face.cornerStep st.vertices st.textures st.normals acc c =
      .error ("face index out of bounds: " ++ toString k) := by
    simp only [Face.cornerStep, hidx, faceIndexVertex, hk]
    rw [if_pos hoob]
  have hface : Face.fromLine rest st.vertices st.textures st.normals =
      .error ("face index out of bounds: " ++ toString k) := by
    unfold Face.fromLine
    rw [hcorners, Face.fromCorners_append _ _ _ _ _ _ _ hloop]
    simp only [Face.fromCorners, hstep]
  have hline : Model.processLine pre.length faceLine st =
      .error (.FaceParsingError ("at line " ++ toString (pre.length + 1) ++ ": " ++
        ("face index out of bounds: " ++ toString k))) := by
    simp only [Model.processLine, hsplit]
    rw [if_neg (show ¬(['f'] : List Char) = ['v'] by decide),
        if_neg (show ¬(['f'] : List Char) = ['v', 'n'] by decide),
        if_neg (show ¬(['f'] : List Char) = ['v', 't'] by decide)]
    simp only [if_true, hface]
  unfold Model.fromLines
  rw [Model.processLines_append _ _ _ _ _ hpre]
  simp only [Nat.zero_add, Model.processLines, hline]

/-- Witness for C7: three vertices, then the face line `f 4 2 3` whose
first corner references the nonexistent vertex 4 — loading fails citing
line 4. -/
theorem C7_face_index_out_of_bounds_error_witness :
    Model.processLines 0 ["v 0 0 0".data, "v 1 0 0".data, "v 0 1 0".data]
        ⟨[], [], [], []⟩ =
      .ok ⟨[Vec3f.new 0 0 0, Vec3f.new 1 0 0, Vec3f.new 0 1 0], [], [], []⟩ ∧
    splitOnceChar ' ' "f 4 2 3".data = some (['f'], "4 2 3".data) ∧
    splitWhitespaceChars "4 2 3".data = [] ++ ['4'] :: [['2'], ['3']] ∧
    parseUsizeChars ['4'] = some 4 ∧
    4 > ([Vec3f.new 0 0 0, Vec3f.new 1 0 0, Vec3f.new 0 1 0] : List Vec3f).length ∧
    Model.fromLines
        (["v 0 0 0".data, "v 1 0 0".data, "v 0 1 0".data] ++ "f 4 2 3".data :: []) =
      .error (.FaceParsingError ("at line " ++ toString (3 + 1) ++ ": " ++
        ("face index out of bounds: " ++ toString 4))) := by
  refine ⟨by decide, by decide, by decide, by decide, by decide, ?_⟩
  exact C7_face_index_out_of_bounds_error
    ["v 0 0 0".data, "v 1 0 0".data, "v 0 1 0".data] []
    ⟨[Vec3f.new 0 0 0, Vec3f.new 1 0 0, Vec3f.new 0 1 0], [], [], []⟩
    "f 4 2 3".data "4 2 3".data [] [['2'], ['3']] ['4'] ([], [], []) ['4'] [] 4
    (by decide) (by decide) (by decide) (by decide) (by decide) (by decide)
    (Or.inr (by decide))

/-- C8: `render_face` is effect-free on its skip paths.  A face whose
vertex count differs from 3 is dropped with no canvas writes and an
unchanged depth buffer; likewise a face with exactly 3 vertices and
exactly 3 normals for which fewer than 3 per-vertex intensities
`dot(light, normal)` are strictly positive (the call "succeeds" — the
model's skip paths cannot fail). -/
theorem C8_render_face_skip_no_effects :
    (∀ (res : Resolution) (light : Vec3f) (face : Face) (vp proj : Mat4x4f)
       (zb : Nat → ℚ), face.vertices.length ≠ 3 →
       Renderer.renderFace res light face vp proj zb = (zb, [])) ∧
    (∀ (res : Resolution) (light : Vec3f) (face : Face) (vp proj : Mat4x4f)
       (zb : Nat → ℚ),
       face.vertices.length = 3 → face.normals.length = 3 →
       ((face.normals.map (fun n => light.dot n)).filter
          (fun i => decide (0 < i))).length < 3 →
       Renderer.renderFace res light face vp proj zb = (zb, [])) := by
  constructor
  · intro res light face vp proj zb h
    unfold Renderer.renderFace
    rw [if_pos h]
  · intro res light face vp proj zb h3 hn hlt
    simp only [Renderer.renderFace]
    rw [if_neg (by simp [h3]), if_neg (by simp [hn]), if_neg (Nat.ne_of_lt hlt)]

/-- Witness for C8: a vertex-less face, and a 3-vertex face whose three
normals are all orthogonal to the light (no strictly positive intensity
survives) — both render with no effects. -/
theorem C8_render_face_skip_no_effects_witness :
    ((⟨[], [], []⟩ : Face).vertices.length ≠ 3 ∧
      Renderer.renderFace ⟨4, 4⟩ (Vec3f.new 0 0 1) ⟨[], [], []⟩
        Mat4x4f.identity Mat4x4f.identity (fun _ => 0) = ((fun _ => 0), [])) ∧
    ((⟨[Vec3f.new 0 0 0, Vec3f.new 1 0 0, Vec3f.new 0 1 0], [],
        [Vec3f.new 1 0 0, Vec3f.new 1 0 0, Vec3f.new 1 0 0]⟩ : Face).vertices.length = 3 ∧
     (⟨[Vec3f.new 0 0 0, Vec3f.new 1 0 0, Vec3f.new 0 1 0], [],
        [Vec3f.new 1 0 0, Vec3f.new 1 0 0, Vec3f.new 1 0 0]⟩ : Face).normals.length = 3 ∧
     (((⟨[Vec3f.new 0 0 0, Vec3f.new 1 0 0, Vec3f.new 0 1 0], [],
          [Vec3f.new 1 0 0, Vec3f.new 1 0 0, Vec3f.new 1 0 0]⟩ : Face).normals.map
            (fun n => (Vec3f.new 0 0 1).dot n)).filter
          (fun i => decide (0 < i))).length < 3 ∧
     Renderer.renderFace ⟨4, 4⟩ (Vec3f.new 0 0 1)
        ⟨[Vec3f.new 0 0 0, Vec3f.new 1 0 0, Vec3f.new 0 1 0], [],
          [Vec3f.new 1 0 0, Vec3f.new 1 0 0, Vec3f.new 1 0 0]⟩
        Mat4x4f.identity Mat4x4f.identity (fun _ => 0) = ((fun _ => 0), [])) := by
  constructor
  · exact ⟨by decide,
      C8_render_face_skip_no_effects.1 ⟨4, 4⟩ (Vec3f.new 0 0 1) ⟨[], [], []⟩
        Mat4x4f.identity Mat4x4f.identity (fun _ => 0) (by decide)⟩
  · exact ⟨by decide, by decide, by decide,
      C8_render_face_skip_no_effects.2 ⟨4, 4⟩ (Vec3f.new 0 0 1)
        ⟨[Vec3f.new 0 0 0, Vec3f.new 1 0 0, Vec3f.new 0 1 0], [],
          [Vec3f.new 1 0 0, Vec3f.new 1 0 0, Vec3f.new 1 0 0]⟩
        Mat4x4f.identity Mat4x4f.identity (fun _ => 0)
        (by decide) (by decide) (by decide)⟩

/-- `pixZSpec` reads the buffer only at the pixel's own index. -/
theorem pixZSpec_congr (res : Resolution) (tri : Triangle) (zb1 zb2 : Nat → ℚ)
    (p : Nat × Nat) (h : zb1 (p.1 + res.width * p.2) = zb2 (p.1 + res.width * p.2)) :
    pixZSpec res tri zb1 p = pixZSpec res tri zb2 p := by
  unfold pixZSpec
  rw [h]

/-- `pixWSpec` reads the buffer only at the pixel's own index. -/
theorem pixWSpec_congr (res : Resolution) (tri : Triangle) (cf : ℚ × ℚ × ℚ → Color)
    (zb1 zb2 : Nat → ℚ) (p : Nat × Nat)
    (h : zb1 (p.1 + res.width * p.2) = zb2 (p.1 + res.width * p.2)) :
    pixWSpec res tri cf zb1 p = pixWSpec res tri cf zb2 p := by
  unfold pixWSpec
  rw [h]

/-- Folding over a flattened list of blocks equals the nested fold. -/
theorem foldl_bind_eq {α β γ : Type _} (f : γ → β → γ) (xs : List α)
    (g : α → List β) (init : γ) :
    (xs.flatMap g).foldl f init = xs.foldl (fun acc x => (g x).foldl f acc) init := by
  induction xs generalizing init with
  | nil => rfl
  | cons x xs ih => simp [List.foldl_append, ih]

/-- The nested pixel loops of `render_triangle_fn` are the left fold of
`pixelStep` over the row-major pixel list. -/
theorem renderTriangleFn_eq_foldl (res : Resolution) (tri : Triangle)
    (cf : ℚ × ℚ × ℚ → Color) (zb : Nat → ℚ) :
    Renderer.renderTriangleFn res tri cf zb =
      (Renderer.pixList res tri).foldl (Renderer.pixelStep res tri cf) (zb, []) := by
  unfold Renderer.renderTriangleFn Renderer.pixList
  rw [foldl_bind_eq]
  simp only [List.foldl_map]

/-- The clamped bounding box never exceeds the canvas on the right. -/
theorem bbox_maxX_le (res : Resolution) (tri : Triangle) :
    (Renderer.bbox res tri).maxX ≤ res.width - 1 := by
  have key : ∀ (l : List Vec3f) (b : BBox), b.maxX ≤ res.width - 1 →
      (l.foldl (Renderer.bboxStep res) b).maxX ≤ res.width - 1 := by
    intro l
    induction l with
    | nil => intro b hb; exact hb
    | cons v vs ih =>
      intro b hb
      exact ih _ (Nat.min_le_left _ _)
  exact key _ _ (Nat.zero_le _)

/-- A visited pixel's x coordinate is inside the canvas. -/
theorem pixList_mem_fst_lt (res : Resolution) (tri : Triangle) (hw : 0 < res.width)
    (p : Nat × Nat) (hp : p ∈ Renderer.pixList res tri) : p.1 < res.width := by
  unfold Renderer.pixList at hp
  obtain ⟨x, hx, hmap⟩ := List.mem_flatMap.mp hp
  obtain ⟨y, _, rfl⟩ := List.mem_map.mp hmap
  obtain ⟨i, hi, rfl⟩ := List.mem_range'.mp hx
  have hmx := bbox_maxX_le res tri
  simp only
  omega

/-- Distinct visited pixels occupy distinct row-major depth-buffer
indices. -/
theorem pixList_pairwise (res : Resolution) (tri : Triangle) (hw : 0 < res.width) :
    (Renderer.pixList res tri).Pairwise
      (fun p q => p.1 + res.width * p.2 ≠ q.1 + res.width * q.2) := by
  have hnd : (Renderer.pixList res tri).Nodup := by
    unfold Renderer.pixList
    refine List.nodup_flatMap.mpr ⟨?_, ?_⟩
    · intro x hx
      exact (List.nodup_range' _ _).map (fun a b hab => by
        simpa using congrArg Prod.snd hab)
    · refine List.Pairwise.imp_of_mem ?_ (List.nodup_range' _ _)
      intro a b _ _ hab
      simp only [Function.onFun, List.disjoint_left]
      intro q hqa hqb
      obtain ⟨ya, _, rfl⟩ := List.mem_map.mp hqa
      obtain ⟨yb, _, hq⟩ := List.mem_map.mp hqb
      exact hab (congrArg Prod.fst hq).symm
  refine hnd.imp_of_mem ?_
  intro p q hpm hqm hne heq
  apply hne
  have hpw : p.1 < res.width := pixList_mem_fst_lt res tri hw p hpm
  have hqw : q.1 < res.width := pixList_mem_fst_lt res tri hw q hqm
  have h1 : p.1 = q.1 := by
    have := congrArg (fun n => n % res.width) heq
    simpa [Nat.add_mul_mod_self_left, Nat.mod_eq_of_lt hpw, Nat.mod_eq_of_lt hqw]
      using this
  have h2 : p.2 = q.2 := by
    have := heq
    rw [h1] at this
    have hmul : res.width * p.2 = res.width * q.2 := by omega
    exact Nat.eq_of_mul_eq_mul_left hw hmul
  exact Prod.ext h1 h2

/-- Characterization of the pixel-loop fold of `render_triangle_fn` over a
list of pixels with pairwise-distinct depth-buffer indices: each visited
pixel's final depth is its depth-test result against the entry buffer,
unvisited indices are untouched, and the writes are exactly the per-pixel
writes against the entry buffer, in visit order. -/
theorem foldl_pixelStep_char (res : Resolution) (tri : Triangle)
    (cf : ℚ × ℚ × ℚ → Color) (L : List (Nat × Nat)) :
    ∀ (zb : Nat → ℚ) (ws : List (Nat × Nat × Color)),
    L.Pairwise (fun p q => p.1 + res.width * p.2 ≠ q.1 + res.width * q.2) →
    (∀ p ∈ L,
      (L.foldl (Renderer.pixelStep res tri cf) (zb, ws)).1 (p.1 + res.width * p.2) =
        pixZSpec res tri zb p) ∧
    (∀ i, (∀ p ∈ L, p.1 + res.width * p.2 ≠ i) →
      (L.foldl (Renderer.pixelStep res tri cf) (zb, ws)).1 i = zb i) ∧
    (L.foldl (Renderer.pixelStep res tri cf) (zb, ws)).2 =
      ws ++ L.filterMap (pixWSpec res tri cf zb) := by
  induction L with
  | nil =>
    intro zb ws _
    refine ⟨by simp, fun i _ => rfl, by simp⟩
  | cons p0 L' ih =>
    intro zb ws hpw
    obtain ⟨hp0, hpw'⟩ := List.pairwise_cons.mp hpw
    have k1 : (Renderer.pixelStep res tri cf (zb, ws) p0).1 (p0.1 + res.width * p0.2) =
        pixZSpec res tri zb p0 := by
      unfold Renderer.pixelStep pixZSpec
      cases hb : tri.barycentric (Vec3f.new (p0.1 : ℚ) (p0.2 : ℚ) 0) with
      | none => rfl
      | some bcs =>
        by_cases hz : zb (p0.1 + res.width * p0.2) < zInterp tri bcs
        · simp [hz]
        · simp [hz]
    have k2 : ∀ i, i ≠ p0.1 + res.width * p0.2 →
        (Renderer.pixelStep res tri cf (zb, ws) p0).1 i = zb i := by
      intro i hi
      unfold Renderer.pixelStep
      cases hb : tri.barycentric (Vec3f.new (p0.1 : ℚ) (p0.2 : ℚ) 0) with
      | none => rfl
      | some bcs =>
        by_cases hz : zb (p0.1 + res.width * p0.2) < zInterp tri bcs
        · simp [hz, hi]
        · simp [hz]
    have k3 : (Renderer.pixelStep res tri cf (zb, ws) p0).2 =
        ws ++ (pixWSpec res tri cf zb p0).toList := by
      unfold Renderer.pixelStep pixWSpec
      cases hb : tri.barycentric (Vec3f.new (p0.1 : ℚ) (p0.2 : ℚ) 0) with
      | none => simp
      | some bcs =>
        by_cases hz : zb (p0.1 + res.width * p0.2) < zInterp tri bcs
        · simp [hz]
        · simp [hz]
    have ih' := ih (Renderer.pixelStep res tri cf (zb, ws) p0).1
      (Renderer.pixelStep res tri cf (zb, ws) p0).2 hpw'
    simp only [Prod.mk.eta] at ih'
    obtain ⟨i1, i2, i3⟩ := ih'
    refine ⟨?_, ?_, ?_⟩
    · intro p hp
      rw [List.foldl_cons]
      rcases List.mem_cons.mp hp with rfl | hp'
      · exact (i2 _ (fun q hq => Ne.symm (hp0 q hq))).trans k1
      · exact (i1 p hp').trans
          (pixZSpec_congr res tri _ zb p (k2 _ (Ne.symm (hp0 p hp'))))
    · intro i hi
      rw [List.foldl_cons]
      exact (i2 i (fun p hp => hi p (List.mem_cons_of_mem _ hp))).trans
        (k2 i (Ne.symm (hi p0 (List.mem_cons_self _ _))))
    · have hfm : L'.filterMap
          (pixWSpec res tri cf (Renderer.pixelStep res tri cf (zb, ws) p0).1) =
          L'.filterMap (pixWSpec res tri cf zb) :=
        List.filterMap_congr (fun p hp =>
          pixWSpec_congr res tri cf _ zb p (k2 _ (Ne.symm (hp0 p hp))))
      rw [List.foldl_cons, i3, k3, hfm, List.filterMap_cons]
      cases pixWSpec res tri cf zb p0 with
      | none => simp
      | some b => simp

set_option maxHeartbeats 1000000 in
/-- C3: during triangle rasterization, for every pixel considered (member
of the clamped bounding box) whose barycentric query reports containment,
the canvas pixel is written *and* the depth-buffer entry updated (to the
interpolated depth) if and only if the interpolated depth is strictly
greater than the entry's stored value; consequently every depth-buffer
entry is non-decreasing across a single call and across any sequence of
rasterization calls in a frame, which makes occlusion independent of draw
order. -/
theorem C3_depth_test :
    (∀ (res : Resolution) (tri : Triangle) (cf : ℚ × ℚ × ℚ → Color) (zb : Nat → ℚ)
       (x y : Nat) (bcs : ℚ × ℚ × ℚ),
      0 < res.width →
      (x, y) ∈ Renderer.pixList res tri →
      tri.barycentric (Vec3f.new (x : ℚ) (y : ℚ) 0) = some bcs →
      ((zb (x + res.width * y) < zInterp tri bcs →
        (Renderer.renderTriangleFn res tri cf zb).1 (x + res.width * y) =
          zInterp tri bcs ∧
        (x, y, cf bcs) ∈ (Renderer.renderTriangleFn res tri cf zb).2) ∧
       (¬ zb (x + res.width * y) < zInterp tri bcs →
        (Renderer.renderTriangleFn res tri cf zb).1 (x + res.width * y) =
          zb (x + res.width * y) ∧
        ∀ col, (x, y, col) ∉ (Renderer.renderTriangleFn res tri cf zb).2))) ∧
    (∀ (res : Resolution) (tri : Triangle) (cf : ℚ × ℚ × ℚ → Color) (zb : Nat → ℚ)
       (i : Nat), 0 < res.width →
      zb i ≤ (Renderer.renderTriangleFn res tri cf zb).1 i) ∧
    (∀ (res : Resolution) (calls : List (Triangle × (ℚ × ℚ × ℚ → Color)))
       (zb : Nat → ℚ) (i : Nat), 0 < res.width →
      zb i ≤ Renderer.renderSeq res calls zb i) := by
  have mono : ∀ (res : Resolution) (tri : Triangle) (cf : ℚ × ℚ × ℚ → Color)
      (zb : Nat → ℚ) (i : Nat), 0 < res.width →
      zb i ≤ (Renderer.renderTriangleFn res tri cf zb).1 i := by
    intro res tri cf zb i hw
    rw [renderTriangleFn_eq_foldl]
    obtain ⟨h1, h2, _⟩ := foldl_pixelStep_char res tri cf (Renderer.pixList res tri)
      zb [] (pixList_pairwise res tri hw)
    by_cases hmem : ∃ p ∈ Renderer.pixList res tri, p.1 + res.width * p.2 = i
    · obtain ⟨p, hp, hpi⟩ := hmem
      rw [← hpi, h1 p hp]
      unfold pixZSpec
      cases hb : tri.barycentric (Vec3f.new (p.1 : ℚ) (p.2 : ℚ) 0) with
      | none => exact le_refl _
      | some bcs =>
        by_cases hz : zb (p.1 + res.width * p.2) < zInterp tri bcs
        · simp only [hz, if_true]
          exact le_of_lt hz
        · simp only [hz, if_false]
          exact le_refl _
    · push_neg at hmem
      rw [h2 i hmem]
  refine ⟨?_, mono, ?_⟩
  · intro res tri cf zb x y bcs hw hmem hb
    obtain ⟨h1, h2, h3⟩ := foldl_pixelStep_char res tri cf (Renderer.pixList res tri)
      zb [] (pixList_pairwise res tri hw)
    have h1' := h1 (x, y) hmem
    dsimp only at h1'
    constructor
    · intro hz
      constructor
      · rw [renderTriangleFn_eq_foldl, h1']
        simp [pixZSpec, hb, hz]
      · rw [renderTriangleFn_eq_foldl, h3]
        simp only [List.nil_append]
        refine List.mem_filterMap.mpr ⟨(x, y), hmem, ?_⟩
        simp [pixWSpec, hb, hz]
    · intro hz
      constructor
      · rw [renderTriangleFn_eq_foldl, h1']
        simp [pixZSpec, hb, hz]
      · intro col hcol
        rw [renderTriangleFn_eq_foldl, h3] at hcol
        simp only [List.nil_append] at hcol
        obtain ⟨p, _, hps⟩ := List.mem_filterMap.mp hcol
        unfold pixWSpec at hps
        cases hbp : tri.barycentric (Vec3f.new (p.1 : ℚ) (p.2 : ℚ) 0) with
        | none => rw [hbp] at hps; exact absurd hps (by simp)
        | some bcs' =>
          rw [hbp] at hps
          dsimp only at hps
          by_cases hzp : zb (p.1 + res.width * p.2) < zInterp tri bcs'
          · rw [if_pos hzp] at hps
            simp only [Option.some.injEq, Prod.mk.injEq] at hps
            obtain ⟨hx1, hy1, _⟩ := hps
            rw [hx1, hy1] at hbp hzp
            rw [hb] at hbp
            injection hbp with hbb
            rw [← hbb] at hzp
            exact hz hzp
          · rw [if_neg hzp] at hps
            exact absurd hps (by simp)
  · intro res calls zb i hw
    induction calls generalizing zb with
    | nil => exact le_refl _
    | cons c cs ih =>
      unfold Renderer.renderSeq
      rw [List.foldl_cons]
      exact le_trans (mono res c.1 c.2 zb i hw) (ih _)

/-- Witness for C3: on a 4×4 canvas, the triangle with screen vertices
`(0,0,5), (3,0,5), (0,3,5)` contains pixel `(1,1)` with barycentrics
`(1/3,1/3,1/3)`; against a zeroed depth buffer the depth test passes and
the pixel is drawn. -/
theorem C3_depth_test_witness :
    0 < (⟨4, 4⟩ : Resolution).width ∧
    ((1, 1) : Nat × Nat) ∈ Renderer.pixList ⟨4, 4⟩
      (Triangle.new (Vec3f.new 0 0 5) (Vec3f.new 3 0 5) (Vec3f.new 0 3 5)) ∧
    (Triangle.new (Vec3f.new 0 0 5) (Vec3f.new 3 0 5) (Vec3f.new 0 3 5)).barycentric
        (Vec3f.new ((1 : Nat) : ℚ) ((1 : Nat) : ℚ) 0) = some (1/3, 1/3, 1/3) ∧
    (((fun _ => (0 : ℚ)) (1 + (⟨4, 4⟩ : Resolution).width * 1) <
        zInterp (Triangle.new (Vec3f.new 0 0 5) (Vec3f.new 3 0 5) (Vec3f.new 0 3 5))
          (1/3, 1/3, 1/3) →
      (Renderer.renderTriangleFn ⟨4, 4⟩
          (Triangle.new (Vec3f.new 0 0 5) (Vec3f.new 3 0 5) (Vec3f.new 0 3 5))
          (fun _ => ((255, 255, 255) : Color)) (fun _ => (0 : ℚ))).1
          (1 + (⟨4, 4⟩ : Resolution).width * 1) =
        zInterp (Triangle.new (Vec3f.new 0 0 5) (Vec3f.new 3 0 5) (Vec3f.new 0 3 5))
          (1/3, 1/3, 1/3) ∧
      (1, 1, (fun _ => ((255, 255, 255) : Color)) (1/3, 1/3, 1/3)) ∈
        (Renderer.renderTriangleFn ⟨4, 4⟩
          (Triangle.new (Vec3f.new 0 0 5) (Vec3f.new 3 0 5) (Vec3f.new 0 3 5))
          (fun _ => ((255, 255, 255) : Color)) (fun _ => (0 : ℚ))).2) ∧
     (¬ (fun _ => (0 : ℚ)) (1 + (⟨4, 4⟩ : Resolution).width * 1) <
        zInterp (Triangle.new (Vec3f.new 0 0 5) (Vec3f.new 3 0 5) (Vec3f.new 0 3 5))
          (1/3, 1/3, 1/3) →
      (Renderer.renderTriangleFn ⟨4, 4⟩
          (Triangle.new (Vec3f.new 0 0 5) (Vec3f.new 3 0 5) (Vec3f.new 0 3 5))
          (fun _ => ((255, 255, 255) : Color)) (fun _ => (0 : ℚ))).1
          (1 + (⟨4, 4⟩ : Resolution).width * 1) =
        (fun _ => (0 : ℚ)) (1 + (⟨4, 4⟩ : Resolution).width * 1) ∧
      ∀ col, (1, 1, col) ∉
        (Renderer.renderTriangleFn ⟨4, 4⟩
          (Triangle.new (Vec3f.new 0 0 5) (Vec3f.new 3 0 5) (Vec3f.new 0 3 5))
          (fun _ => ((255, 255, 255) : Color)) (fun _ => (0 : ℚ))).2)) := by
  have h1 : 0 < (⟨4, 4⟩ : Resolution).width := by decide
  have h2 : ((1, 1) : Nat × Nat) ∈ Renderer.pixList ⟨4, 4⟩
      (Triangle.new (Vec3f.new 0 0 5) (Vec3f.new 3 0 5) (Vec3f.new 0 3 5)) := by decide
  have h3 : (Triangle.new (Vec3f.new 0 0 5) (Vec3f.new 3 0 5) (Vec3f.new 0 3 5)).barycentric
      (Vec3f.new ((1 : Nat) : ℚ) ((1 : Nat) : ℚ) 0) = some (1/3, 1/3, 1/3) := by decide
  exact ⟨h1, h2, h3,
    C3_depth_test.1 ⟨4, 4⟩
      (Triangle.new (Vec3f.new 0 0 5) (Vec3f.new 3 0 5) (Vec3f.new 0 3 5))
      (fun _ => ((255, 255, 255) : Color)) (fun _ => (0 : ℚ)) 1 1 (1/3, 1/3, 1/3)
      h1 h2 h3⟩

/-- The embedded determinants reproduce the repository's own unit-test
values (`tests/test_geometry.rs`): det = 27 for the 3×3 test matrix,
245 for the 4×4 one, 0 for the dependent-rows matrices, on both the
cofactor and the elimination paths. -/
theorem det_matches_repo_tests :
    (Mat3x3f.ofArray [2, 1, 5, 7, 4, 9, 6, 5, 8]).det = 27 ∧
    (Mat3x3f.ofArray [1, 2, 3, 4, 5, 6, 7, 8, 9]).det = 0 ∧
    (Mat4x4f.ofArray [2, 3, 1, 5, 7, 4, 9, 8, 6, 5, 8, 7, 9, 2, 6, 5]).det = 245 ∧
    (MatNxNf.ofList 3 [2, 1, 5, 7, 4, 9, 6, 5, 8]).det = 27 ∧
    (MatNxNf.ofList 4 [2, 3, 1, 5, 7, 4, 9, 8, 6, 5, 8, 7, 9, 2, 6, 5]).det = 245 ∧
    (MatNxNf.ofList 3 [1, 2, 3, 4, 5, 6, 7, 8, 9]).det = 0 ∧
    (MatNxNf.ofList 4 (List.map (fun n => (n : ℚ)) (List.range' 1 16))).det = 0 := by
  refine ⟨by decide, by decide, by decide, by decide, by decide, by decide, by decide⟩
